import Mathlib

/-!
# Verification of the property-valuation backend

Shallow embedding of the valuation core of the `propertyvalback` repository:
provider adapters (Domain, CoreLogic, realestate.com.au scraper), the
quick-evaluation job pipeline, the suburb historic-sales cache, the weight
configuration store, and the poll/delivery semantics of evaluation jobs.

JavaScript numbers are modelled as `Int` where the source only ever holds
integers; the float paths (`Math.round(x * 0.95)`, `x / n` averages, the
property-type factors) are modelled as exact rational arithmetic expressed
over integer numerator/denominator pairs, rounded with `roundRatio`.
`null`/`undefined` are modelled as `Option`; JS truthiness of a numeric field
(`if (price)`) is `jsTruthyInt`.
-/

/-- Model of JavaScript `Math.round (num / den)` for `den > 0` (round half
toward +∞): `⌊num/den + 1/2⌋`, via integer floor division. -/
def roundRatio (num den : Int) : Int :=
  Int.fdiv (2 * num + den) (2 * den)

/-- JS truthiness of a nullable number: `null`/`undefined` and `0` are falsy. -/
def jsTruthyInt : Option Int → Bool
  | some v => v != 0
  | none => false

/-- Ascending numeric sort, the model of `[...prices].sort((a, b) => a - b)`. -/
def sortAsc (l : List Int) : List Int :=
  List.insertionSort (· ≤ ·) l

/-- `Math.min(...prices)` over a nonempty list, `null` when empty. -/
def listMin : List Int → Option Int
  | [] => none
  | x :: xs => some (xs.foldl min x)

/-- `Math.max(...prices)` over a nonempty list, `null` when empty. -/
def listMax : List Int → Option Int
  | [] => none
  | x :: xs => some (xs.foldl max x)

/-- `Math.round(prices.reduce((a, b) => a + b, 0) / prices.length)`. -/
def listAvg (l : List Int) : Option Int :=
  if l.length = 0 then none
  else some (roundRatio l.sum l.length)

/-- The median rule every statistics block of the source uses:
`sortedPrices[Math.floor(sortedPrices.length / 2)]`, `null` when empty. -/
def medianLower (prices : List Int) : Option Int :=
  let sorted := sortAsc prices
  sorted[sorted.length / 2]?

/-- `statistics.price_range` as produced by every adapter. -/
structure PriceRange where
  min : Option Int
  max : Option Int
  avg : Option Int
  median : Option Int
  deriving Repr, DecidableEq

/-- `statistics` block common to the adapters and the pipeline. -/
structure Statistics where
  total_found : Nat
  sold_count : Nat
  listing_count : Nat
  price_range : PriceRange
  deriving Repr, DecidableEq

/-- A comparable property as the adapters normalise it; only the fields the
claims touch are kept.  `price` is nullable as in the source interfaces. -/
structure Comp where
  address : String
  price : Option Int
  beds : Option Int
  baths : Option Int
  deriving Repr, DecidableEq

/-- Result shape `{comparable_sold, comparable_listings, statistics}`. -/
structure CompData where
  comparable_sold : List Comp
  comparable_listings : List Comp
  statistics : Statistics
  deriving Repr, DecidableEq

/-- The priced entries of a comparable list: `props.filter(p => p.price)`
followed by `.map(p => p.price)` (JS truthiness, so a `0` price is dropped). -/
def pricedPrices (props : List Comp) : List Int :=
  (props.filter (fun p => jsTruthyInt p.price)).filterMap (·.price)

/-- Statistics of `getComparableProperties` in `services/domainApi.ts`:
`prices = soldProperties.filter(p => p.price).map(p => p.price)`, sorted
ascending; `median = sortedPrices[Math.floor(sortedPrices.length / 2)]`
when nonempty, else `null`; `total_found = soldProperties.length`. -/
def domainStatistics (soldProperties : List Comp) : Statistics :=
  let prices := pricedPrices soldProperties
  let sorted := sortAsc prices
  { total_found := soldProperties.length
    sold_count := soldProperties.length
    listing_count := 0
    price_range :=
      { min := listMin prices
        max := listMax prices
        avg := listAvg prices
        median := if sorted.length > 0 then sorted[sorted.length / 2]? else none } }

/-- Statistics of `searchComparableSales` in `services/corelogicApi.ts`:
every pushed sale has a (truthy) price, `prices = properties.map(p => p.price)`;
`median = prices.length > 0 ? sortedPrices[Math.floor(prices.length / 2)] : null`. -/
def corelogicStatistics (prices : List Int) : Statistics :=
  let sorted := sortAsc prices
  { total_found := prices.length
    sold_count := prices.length
    listing_count := 0
    price_range :=
      { min := listMin prices
        max := listMax prices
        avg := listAvg prices
        median := if prices.length > 0 then sorted[prices.length / 2]? else none } }

/-- Statistics of `scrapeComparableProperties` in `services/propertyScraper.ts`
over the similarity-filtered listings and sold lists:
`allPrices = [...similarListings, ...similarSold].filter(p => p.price !== null)`,
`median = sortedPrices.length > 0 ? sortedPrices[...] : null`. -/
def scraperStatistics (similarListings similarSold : List Comp) : Statistics :=
  let allPrices := ((similarListings ++ similarSold).filter
      (fun p => p.price ≠ none)).filterMap (·.price)
  let soldPrices := (similarSold.filter (fun p => p.price ≠ none)).filterMap (·.price)
  let listingPrices := (similarListings.filter (fun p => p.price ≠ none)).filterMap (·.price)
  let sorted := sortAsc allPrices
  { total_found := allPrices.length
    sold_count := soldPrices.length
    listing_count := listingPrices.length
    price_range :=
      { min := listMin allPrices
        max := listMax allPrices
        avg := listAvg allPrices
        median := if sorted.length > 0 then sorted[sorted.length / 2]? else none } }

/-- JS truthiness of a nullable string: `null`/`undefined` and `""` are falsy. -/
def jsTruthyStr : Option String → Bool
  | some s => s != ""
  | none => false

/-- `a || d` for a nullable string and a default literal. -/
def jsOrStr (a : Option String) (d : String) : String :=
  match a with
  | some s => if s = "" then d else s
  | none => d

/-- `s.toLowerCase()`, modelled characterwise over the string's data. -/
def strToLower (s : String) : String :=
  String.mk (s.data.map Char.toLower)

/-! ## Quick-evaluation provider pipeline (`routes/evaluation.ts`, `runQuickEvaluation`) -/

/-- The initial `comparablesData` object of `runQuickEvaluation`. -/
def emptyCompData : CompData :=
  { comparable_sold := []
    comparable_listings := []
    statistics :=
      { total_found := 0, sold_count := 0, listing_count := 0
        price_range := { min := none, max := none, avg := none, median := none } } }

/-- Outcome of the external calls available to one `runQuickEvaluation` run.
A `none` result models the corresponding `await` throwing (the pipeline
catches it and keeps the working set it had). -/
structure ProviderEnv where
  hasCorelogicKeys : Bool
  hasDomainKey : Bool
  corelogicResult : Option CompData
  domainResult : Option CompData
  scrapedResult : Option CompData
  deriving Repr

/-- Which external systems one pipeline run touched. -/
structure PipelineTrace where
  corelogicCalled : Bool
  domainCalled : Bool
  scraperCalled : Bool
  cacheReads : Nat
  cacheWrites : Nat
  deriving Repr, DecidableEq

/-- The scraped-data merge of `runQuickEvaluation` (evaluation.ts lines
355–394): listings are concatenated and truncated to 5; sold entries are
concatenated and truncated to 5 only when fewer than 3 were held; statistics
are recomputed over the priced entries of the combined lists when any exist. -/
def mergeScraped (data scraped : CompData) : CompData :=
  let listings := (data.comparable_listings ++ scraped.comparable_listings).take 5
  let sold :=
    if data.comparable_sold.length < 3 then
      (data.comparable_sold ++ scraped.comparable_sold).take 5
    else data.comparable_sold
  let allSoldPrices := pricedPrices sold
  let allListingPrices := pricedPrices listings
  let allPrices := allSoldPrices ++ allListingPrices
  let stats :=
    if allPrices.length > 0 then
      let sorted := sortAsc allPrices
      { data.statistics with
          total_found := allPrices.length
          sold_count := allSoldPrices.length
          listing_count := allListingPrices.length
          price_range :=
            { min := listMin allPrices
              max := listMax allPrices
              avg := listAvg allPrices
              median := sorted[sorted.length / 2]? } }
    else data.statistics
  { comparable_sold := sold, comparable_listings := listings, statistics := stats }

/-- The working set after the CoreLogic step (evaluation.ts lines 286–318):
CoreLogic is called when its keys exist and its result is adopted when
`total_found > 0`; otherwise the initial empty object stands. -/
def workingSetAfterCorelogic (env : ProviderEnv) : CompData :=
  if env.hasCorelogicKeys then
    match env.corelogicResult with
    | some c => if c.statistics.total_found > 0 then c else emptyCompData
    | none => emptyCompData
  else emptyCompData

/-- The working set after the Domain fallback step (evaluation.ts lines
320–338): Domain replaces the working set only when it was called, i.e. when
the set was empty and a key exists. -/
def workingSetAfterDomain (env : ProviderEnv) : CompData :=
  let data1 := workingSetAfterCorelogic env
  if (data1.statistics.total_found == 0) && env.hasDomainKey then
    match env.domainResult with
    | some d => d
    | none => data1
  else data1

/-- The data-fetching phase of `runQuickEvaluation` (evaluation.ts lines
274–404): the CoreLogic step, the Domain fallback, then the scraper fallback
when `total_found < 3`, whose result replaces an empty working set and is
otherwise merged via `mergeScraped`.  The trace records which adapters the
run consulted. -/
def fetchComparables (env : ProviderEnv) : CompData × PipelineTrace :=
  let data1 := workingSetAfterCorelogic env
  let domainCalled := (data1.statistics.total_found == 0) && env.hasDomainKey
  let data2 := workingSetAfterDomain env
  let scraperCalled := data2.statistics.total_found < 3
  let data3 :=
    if scraperCalled then
      match env.scrapedResult with
      | some s =>
        if s.statistics.total_found > 0 then
          if data2.statistics.total_found == 0 then s else mergeScraped data2 s
        else data2
      | none => data2
    else data2
  (data3,
    { corelogicCalled := env.hasCorelogicKeys
      domainCalled := domainCalled
      scraperCalled := scraperCalled
      cacheReads := 0
      cacheWrites := 0 })

/-! ## Suburb historic-sales cache (`routes/historicSalesCache.ts`) -/

/-- A document of the `historic_sales_cache` collection.  Timestamps are
seconds since the epoch; `sales` entries are kept abstract as `Comp`s. -/
structure CacheEntry where
  cache_key : String
  suburb : String
  state : String
  postcode : Option String
  property_type : String
  sales : List Comp
  cached_at : Int
  total : Nat
  deriving Repr, DecidableEq

/-- `CACHE_DURATION_DAYS = 7`, as seconds. -/
def CACHE_TTL_SECONDS : Int := 7 * 86400

/-- The cache key: `` `${suburb.toLowerCase()}-${state.toLowerCase()}-${postcode || 'none'}-${propertyType || 'all'}` ``. -/
def makeCacheKey (suburb state : String) (postcode propertyType : Option String) : String :=
  strToLower suburb ++ "-" ++ strToLower state ++ "-" ++ jsOrStr postcode "none" ++ "-" ++
    jsOrStr propertyType "all"

/-- Response of the cache read endpoint. -/
inductive CacheReadResult where
  | hit (cache_key : String) (cached_at : Int) (sales : List Comp) (total : Nat)
  | miss (cache_key : String)
  deriving Repr, DecidableEq

/-- `GET /api/historic-sales-cache`: computes the key and a cutoff of
`now` minus 7 days, then `findOne({cache_key, cached_at: {$gte: cutoffDate}})`;
a match yields `{cached: true, ...}`, otherwise `{cached: false}`.  The
handler issues no delete, so the store is not part of the result: reading
never mutates it. -/
def cacheGet (store : List CacheEntry) (suburb state : String)
    (postcode propertyType : Option String) (now : Int) : CacheReadResult :=
  let key := makeCacheKey suburb state postcode propertyType
  let cutoff := now - CACHE_TTL_SECONDS
  match store.find? (fun e => e.cache_key == key && decide (cutoff ≤ e.cached_at)) with
  | some e => .hit key e.cached_at e.sales e.total
  | none => .miss key

/-- `updateOne({cache_key}, {$set: entry}, {upsert: true})`: replace the first
document with the key, or append when none exists. -/
def cacheUpsert (key : String) (entry : CacheEntry) : List CacheEntry → List CacheEntry
  | [] => [entry]
  | e :: rest =>
    if e.cache_key == key then entry :: rest else e :: cacheUpsert key entry rest

/-- `POST /api/historic-sales-cache`: builds the entry (fresh `cached_at`,
`total = sales.length`) and upserts it wholesale. -/
def cachePost (store : List CacheEntry) (suburb state : String)
    (postcode propertyType : Option String) (sales : List Comp) (now : Int) :
    List CacheEntry :=
  let key := makeCacheKey suburb state postcode propertyType
  let entry : CacheEntry :=
    { cache_key := key
      suburb := strToLower suburb
      state := strToLower state
      postcode := postcode
      property_type := jsOrStr propertyType "all"
      sales := sales
      cached_at := now
      total := sales.length }
  cacheUpsert key entry store

/-- `runQuickEvaluation` together with the suburb cache: the function body
(evaluation.ts lines 260–446) contains no reference to the cache collection
or its endpoints, so the cache passes through unchanged and the trace records
zero cache operations. -/
def fetchComparablesWithCache (env : ProviderEnv) (cache : List CacheEntry) :
    CompData × List CacheEntry × PipelineTrace :=
  let (data, trace) := fetchComparables env
  (data, cache, trace)

/-! ## Evaluation jobs: lifecycle and polling (`routes/evaluation.ts` database
variant; in-memory variant at the end of `routes/historicSalesWeights.ts`) -/

/-- `status: 'queued' | 'in_progress' | 'completed' | 'failed'`. -/
inductive JobStatus where
  | queued
  | in_progress
  | completed
  | failed
  deriving Repr, DecidableEq

/-- An `EvaluationJob` record; the result payload is kept abstract. -/
structure EvalJob where
  job_id : String
  status : JobStatus
  stage : String
  result : Option String
  error : Option String
  deriving Repr, DecidableEq

/-- `findOne({job_id})` over the jobs store (first match). -/
def getJobRec (store : List EvalJob) (jobId : String) : Option EvalJob :=
  store.find? (·.job_id == jobId)

/-- `deleteOne({job_id})`: removes the first matching record. -/
def deleteJobRec (store : List EvalJob) (jobId : String) : List EvalJob :=
  store.eraseP (·.job_id == jobId)

/-- Response of `GET /:jobId/status`. -/
inductive PollResponse where
  | notFound
  | ok (status : JobStatus) (stage : String) (result : Option String)
      (error : Option String)
  deriving Repr, DecidableEq

/-- Database-variant poll handler (evaluation.ts lines 490–518): 404 when the
job is absent; otherwise `{status, stage}`, plus the result (and deletion of
the record) when `completed` with a result attached, plus the error (and
deletion) when `failed` with a truthy error message. -/
def pollStatusDb (store : List EvalJob) (jobId : String) :
    PollResponse × List EvalJob :=
  match getJobRec store jobId with
  | none => (.notFound, store)
  | some job =>
    let deliverResult := job.status == .completed && job.result.isSome
    let deliverError := job.status == .failed && jsTruthyStr job.error
    let store1 := if deliverResult || deliverError then deleteJobRec store jobId else store
    (.ok job.status job.stage
      (if deliverResult then job.result else none)
      (if deliverError then job.error else none), store1)

/-- In-memory-variant poll handler (historicSalesWeights.ts lines 439–463):
identical response computation, but the handler never deletes the job — only
the 10-minute interval reaper does. -/
def pollStatusMem (store : List EvalJob) (jobId : String) :
    PollResponse × List EvalJob :=
  match getJobRec store jobId with
  | none => (.notFound, store)
  | some job =>
    (.ok job.status job.stage
      (if job.status == .completed && job.result.isSome then job.result else none)
      (if job.status == .failed && jsTruthyStr job.error then job.error else none),
     store)

/-- The sequence of `status` values stored for one job, in order: the POST
handler saves the record with `queued`; `runQuickEvaluation` returns at once
if the record vanished (`if (!job) return`), else the first statements of its
`try` block set `in_progress` (nothing before them can throw: `saveJob`
catches internally); on normal completion it stores `completed`; the
top-level `catch` stores `failed`.  `bodyOk = false` models any exception
escaping the body after `in_progress` was set. -/
def jobStatusTrace (jobFound bodyOk : Bool) : List JobStatus :=
  if !jobFound then [.queued]
  else [.queued, .in_progress, if bodyOk then .completed else .failed]

/-- The transitions the spec allows:
queued → in_progress → {completed | failed}. -/
def allowedTransition : JobStatus → JobStatus → Bool
  | .queued, .in_progress => true
  | .in_progress, .completed => true
  | .in_progress, .failed => true
  | _, _ => false

/-! ## Weight configuration store (Mongo variant, second router of
`routes/agents.ts`, collection `historic_sales_weights`) -/

/-- A weights configuration; the scoring coefficients are irrelevant to the
activation invariant and are summarised by `name`. -/
structure WeightsConfig where
  id : String
  name : String
  is_active : Bool
  deriving Repr, DecidableEq

/-- Number of active configurations in the store. -/
def activeCount (store : List WeightsConfig) : Nat :=
  (store.filter (·.is_active)).length

/-- `updateOne({id}, {$set: f})`: applies `f` to the first record with `id`. -/
def updateFirstById (id : String) (f : WeightsConfig → WeightsConfig) :
    List WeightsConfig → List WeightsConfig
  | [] => []
  | w :: rest =>
    if w.id == id then f w :: rest else w :: updateFirstById id f rest

/-- `updateMany({is_active: true}, {$set: {is_active: false}})`. -/
def deactivateAll (store : List WeightsConfig) : List WeightsConfig :=
  store.map (fun w => if w.is_active then { w with is_active := false } else w)

/-- `GET /`: `findOne({is_active: true})`; when none exists, insert
`DEFAULT_HISTORIC_SALES_WEIGHTS` (whose `is_active` is `true`) with a fresh
id and return it. -/
def getActiveWeights (store : List WeightsConfig) (freshId : String) :
    List WeightsConfig × WeightsConfig :=
  match store.find? (·.is_active) with
  | some w => (store, w)
  | none =>
    let d : WeightsConfig := { id := freshId, name := "default", is_active := true }
    (store ++ [d], d)

/-- `POST /`: builds the new configuration with `is_active: true` (overriding
any body value), deactivates all active records, then inserts it. -/
def createWeights (store : List WeightsConfig) (freshId name : String) :
    List WeightsConfig :=
  deactivateAll store ++ [{ id := freshId, name := name, is_active := true }]

/-- `POST /:id/activate`: 404 when the id is absent; otherwise deactivate all
active records, then set the record active.  The `Bool` reports success. -/
def activateWeights (store : List WeightsConfig) (id : String) :
    List WeightsConfig × Bool :=
  match store.find? (·.id == id) with
  | none => (store, false)
  | some _ =>
    (updateFirstById id (fun w => { w with is_active := true }) (deactivateAll store),
     true)

/-- `PUT /:id`: 404 when absent.  `updates` spreads the request body (not the
existing record), so `is_active` is written only when the body carries it;
`if (updates.is_active)` (truthiness) deactivates the *other* active records
first.  `bodyActive` models the body's optional `is_active` field. -/
def updateWeights (store : List WeightsConfig) (id : String)
    (bodyActive : Option Bool) : List WeightsConfig × Bool :=
  match store.find? (·.id == id) with
  | none => (store, false)
  | some _ =>
    let store1 :=
      if bodyActive == some true then
        store.map (fun w =>
          if w.is_active && w.id != id then { w with is_active := false } else w)
      else store
    let store2 := updateFirstById id
      (fun w => match bodyActive with
        | some b => { w with is_active := b }
        | none => w) store1
    (store2, true)

/-- Outcome of `DELETE /:id`. -/
inductive DeleteWeightsResult where
  | notFound
  | activeForbidden
  | deleted
  deriving Repr, DecidableEq

/-- `DELETE /:id`: 404 when absent; 400 (store untouched) when the record is
active; otherwise `deleteOne({id})`. -/
def deleteWeights (store : List WeightsConfig) (id : String) :
    List WeightsConfig × DeleteWeightsResult :=
  match store.find? (·.id == id) with
  | none => (store, .notFound)
  | some w =>
    if w.is_active then (store, .activeForbidden)
    else (store.eraseP (·.id == id), .deleted)

/-! ## Price parsing (`services/propertyScraper.ts` `extractPrice`,
`services/domainApi.ts` inline price extraction) -/

/-- Model of the regex class `\s` on the characters that occur here. -/
def isJsSpace (c : Char) : Bool := c == ' ' || c == '\t' || c == '\n' || c == '\r'

/-- Characters removed by `priceText.replace(/[$,\s]/g, '')`. -/
def stripMoneyChars (s : List Char) : List Char :=
  s.filter (fun c => !(c == '$' || c == ',' || isJsSpace c))

/-- `parseInt` of a nonempty all-digit string. -/
def digitsToNat (ds : List Char) : Nat :=
  ds.foldl (fun n c => n * 10 + (c.toNat - 48)) 0

/-- Scanner for `cleaned.match(/(\d{6,})/)`: the accumulator holds the
current digit run reversed; the first maximal digit run of length ≥ `n` is
returned (a shorter run is abandoned, as regex scanning resumes after it). -/
def firstRunGEAux (n : Nat) (cur : List Char) : List Char → Option (List Char)
  | [] => if n ≤ cur.length then some cur.reverse else none
  | c :: rest =>
    if c.isDigit then firstRunGEAux n (c :: cur) rest
    else if n ≤ cur.length then some cur.reverse
    else firstRunGEAux n [] rest

/-- First maximal digit run of length at least `n` (model of `/\d{n,}/`). -/
def firstRunGE (n : Nat) (s : List Char) : Option (List Char) :=
  firstRunGEAux n [] s

/-- Character class `[\d.]`. -/
def numDotChar (c : Char) : Bool := c.isDigit || c == '.'

/-- Scanner for `/([\d.]+)\s*m/` (resp. `k`): a maximal `[\d.]` run matches
iff it is followed, after optional whitespace, by the suffix character; a
failed run is skipped wholesale (any start inside it fails the same way).
The fuel starts at the string length, which bounds the recursion depth. -/
def findSuffixNumAux (suffix : Char) : Nat → List Char → Option (List Char)
  | 0, _ => none
  | _, [] => none
  | fuel+1, c :: rest =>
    if numDotChar c then
      let run := c :: rest.takeWhile numDotChar
      let after := rest.dropWhile numDotChar
      match after.dropWhile isJsSpace with
      | d :: _ => if d == suffix then some run else findSuffixNumAux suffix fuel after
      | [] => findSuffixNumAux suffix fuel after
    else findSuffixNumAux suffix fuel rest

/-- Capture group of the first match of `/([\d.]+)\s*<suffix>/`. -/
def findSuffixNum (suffix : Char) (s : List Char) : Option (List Char) :=
  findSuffixNumAux suffix s.length s

/-- `parseFloat` restricted to the `[\d.]+` capture groups that reach it:
optional integer digits, an optional dot with fraction digits, anything after
a second dot ignored; `NaN` (no leading digits at all) is `none`.  The value
is returned as an exact `(numerator, denominator)` pair. -/
def parseJsFloat (s : List Char) : Option (Int × Int) :=
  let intPart := s.takeWhile Char.isDigit
  let rest := s.dropWhile Char.isDigit
  match rest with
  | '.' :: r2 =>
    let fracPart := r2.takeWhile Char.isDigit
    if intPart.isEmpty && fracPart.isEmpty then none
    else
      some ((digitsToNat intPart : Int) * (10 ^ fracPart.length : Int) +
              (digitsToNat fracPart : Int), (10 ^ fracPart.length : Int))
  | _ => if intPart.isEmpty then none else some ((digitsToNat intPart : Int), 1)

/-- `extractPrice` of `services/propertyScraper.ts`: strip `[$,\s]`, look for
6+ consecutive digits, else `([\d.]+)\s*m` (millions) on the lowercased text,
else `([\d.]+)\s*k` (thousands), else `null`.  A `NaN` product of `parseFloat`
is modelled as `none` (both are falsy to every caller). -/
def extractPrice (priceText : String) : Option Int :=
  if priceText = "" then none
  else
    let cleaned := stripMoneyChars priceText.data
    match firstRunGE 6 cleaned with
    | some run => some (digitsToNat run : Int)
    | none =>
      let lower := priceText.data.map Char.toLower
      match findSuffixNum 'm' lower with
      | some run =>
        match parseJsFloat run with
        | some (n, d) => some (roundRatio (n * 1000000) d)
        | none => none
      | none =>
        match findSuffixNum 'k' lower with
        | some run =>
          match parseJsFloat run with
          | some (n, d) => some (roundRatio (n * 1000) d)
          | none => none
        | none => none

/-- Scanner for the Domain adapter's `displayPrice.match(/\$[\d,]+/)`: first
`$` followed by at least one digit or comma; returns the `[\d,]+` run after
the `$`. -/
def domainPriceMatch : List Char → Option (List Char)
  | [] => none
  | c :: rest =>
    if c == '$' then
      let run := rest.takeWhile (fun d => d.isDigit || d == ',')
      if run.isEmpty then domainPriceMatch rest else some run
    else domainPriceMatch rest

/-- Price extraction of `searchSoldProperties` in `services/domainApi.ts`:
`priceMatch[0].replace('$', '').replace(/,/g, '')` then `parseInt`; a
comma-only match parses to `NaN`, modelled `none`. -/
def domainParsePrice (displayPrice : String) : Option Int :=
  match domainPriceMatch displayPrice.data with
  | none => none
  | some run =>
    let ds := run.filter (fun c => c != ',')
    if ds.isEmpty then none else some (digitsToNat ds : Int)

/-- `listing.priceDetails?.displayPrice` guard (`if (...displayPrice)`, JS
string truthiness) followed by the regex extraction. -/
def domainListingPrice (displayPrice : Option String) : Option Int :=
  match displayPrice with
  | some dp => if dp = "" then none else domainParsePrice dp
  | none => none

/-- A raw Domain listing: the fields the parsing loop reads. -/
structure DomainListing where
  headline : Option String
  displayPrice : Option String
  bedrooms : Option Int
  bathrooms : Option Int
  deriving Repr

/-- The parsing loop of `searchSoldProperties` (domainApi.ts lines 130–180):
at most 10 listings are examined and a property is pushed only when its
extracted price is truthy (`if (propData.price)`), never with a defaulted
price. -/
def buildDomainProperties (listings : List DomainListing) : List Comp :=
  (listings.take 10).filterMap (fun l =>
    let price := domainListingPrice l.displayPrice
    if jsTruthyInt price then
      some { address := jsOrStr l.headline "Address not available"
             price := price, beds := l.bedrooms, baths := l.bathrooms }
    else none)

/-- A scraped JSON-LD item: address data plus the raw price text handed to
`extractPrice` (`prop.offers?.price || prop.offers?.priceRange || ''`). -/
structure ScrapeItem where
  address : String
  priceText : String
  numberOfRooms : Option Int
  deriving Repr

/-- The JSON-LD parsing loop of `scrapeRealestateListings` (propertyScraper.ts
lines 380–398): at most 10 items, pushed only when `extractPrice` yields a
truthy value (`if (price)`); `beds` falls back to the search parameter. -/
def buildScrapedListings (items : List ScrapeItem) (beds baths : Int) : List Comp :=
  (items.take 10).filterMap (fun it =>
    match extractPrice it.priceText with
    | some p =>
      if p != 0 then
        some { address := it.address, price := some p
               beds := some (match it.numberOfRooms with
                 | some r => if r ≠ 0 then r else beds
                 | none => beds)
               baths := some baths }
      else none
    | none => none)

/-! ## Tertiary scraper aggregation (`scrapeComparableProperties`) -/

/-- The `filterSimilar` closure of `scrapeComparableProperties`:
`p.beds !== null && |p.beds − beds| ≤ 1 && (p.baths === null || |p.baths − baths| ≤ 1)`. -/
def filterSimilar (beds baths : Int) (props : List Comp) : List Comp :=
  props.filter (fun p =>
    match p.beds with
    | none => false
    | some b =>
      decide ((b - beds).natAbs ≤ 1) &&
        (match p.baths with
         | none => true
         | some ba => decide ((ba - baths).natAbs ≤ 1)))

/-- `scrapeComparableProperties` (propertyScraper.ts lines 548–607) after the
two concurrent fetches returned `listings` and `sold`: similarity-filter both,
compute statistics over all filtered entries, and return each list truncated
to its first 5 entries. -/
def scrapeComparablePropertiesResult (listings sold : List Comp)
    (beds baths : Int) : CompData :=
  let similarListings := filterSimilar beds baths listings
  let similarSold := filterSimilar beds baths sold
  { comparable_sold := similarSold.take 5
    comparable_listings := similarListings.take 5
    statistics := scraperStatistics similarListings similarSold }

/-! ## Fallback report formulas (`generateBasicReport` in
`routes/evaluation.ts`; `calculateEstimatedPrice` in the in-memory variant) -/

/-- The target-property payload fields the report formulas read. -/
structure PropertyInput where
  location : String
  beds : Option Int
  baths : Option Int
  carpark : Option Int
  size : Option Int
  property_type : Option String
  deriving Repr

/-- The estimate of `generateBasicReport` (evaluation.ts lines 199–213):
`range.median || range.avg || 0`; when that is falsy, the additive formula
`500000 + beds·100000 + baths·50000 + carpark·30000 (+ size·3000)` —
with no property-type factor and no rounding step. -/
def basicReportEstimate (median avg : Option Int) (p : PropertyInput) : Int :=
  let e0 : Int :=
    if jsTruthyInt median then median.getD 0
    else if jsTruthyInt avg then avg.getD 0
    else 0
  if e0 = 0 then
    500000 + p.beds.getD 0 * 100000 + p.baths.getD 0 * 50000 +
      p.carpark.getD 0 * 30000 +
      (if jsTruthyInt p.size then p.size.getD 0 * 3000 else 0)
  else e0

/-- The three-point range of `generateBasicReport`:
`Math.round(estimatedPrice * 0.95)` / the estimate / `Math.round(estimatedPrice * 1.05)`. -/
structure ReportRange where
  conservative : Int
  market : Int
  premium : Int
  deriving Repr, DecidableEq

/-- Conservative/Market/Premium as printed by `generateBasicReport`
(evaluation.ts lines 215–227). -/
def basicReportRange (median avg : Option Int) (p : PropertyInput) : ReportRange :=
  let e := basicReportEstimate median avg p
  { conservative := roundRatio (19 * e) 20
    market := e
    premium := roundRatio (21 * e) 20 }

/-- The property-type multiplier of `calculateEstimatedPrice`
(historicSalesWeights.ts lines 337–351) as an exact fraction:
house 1.2, townhouse 1.0, apartment 0.85, villa 1.1, anything else
(including absent) untouched. -/
def typeFactor (propertyType : Option String) : Int × Int :=
  match propertyType with
  | none => (1, 1)
  | some t =>
    let tl := strToLower t
    if tl = "house" then (12, 10)
    else if tl = "townhouse" then (10, 10)
    else if tl = "apartment" then (85, 100)
    else if tl = "villa" then (11, 10)
    else (1, 1)

/-- `calculateEstimatedPrice` of the in-memory variant (historicSalesWeights.ts
lines 319–357): the same additive core, then the property-type factor, then a
random factor `0.9 + Math.random() * 0.2` — modelled as the exact parameter
`rNum/rDen` — then `Math.round(basePrice / 10000) * 10000`. -/
def calculateEstimatedPrice (p : PropertyInput) (rNum rDen : Int) : Int :=
  let basePrice : Int :=
    500000 + p.beds.getD 0 * 100000 + p.baths.getD 0 * 50000 +
      p.carpark.getD 0 * 30000 +
      (if jsTruthyInt p.size then p.size.getD 0 * 3000 else 0)
  let f := typeFactor p.property_type
  roundRatio (basePrice * f.1 * rNum) (f.2 * rDen * 10000) * 10000

/-- The range line of the in-memory placeholder report
(`generatePlaceholderReport`): `Math.round(estimatedPrice * 0.95)` to
`Math.round(estimatedPrice * 1.05)` around the estimate. -/
def placeholderReportRange (e : Int) : ReportRange :=
  { conservative := roundRatio (19 * e) 20
    market := e
    premium := roundRatio (21 * e) 20 }

/-! ## Concrete fixtures for witnesses and counterexamples -/

/-- A cache entry under the key for suburb Bondi, state NSW, no postcode, all
property types, written at epoch-second 1000. -/
def bondiCacheEntry : CacheEntry :=
  { cache_key := "bondi-nsw-none-all"
    suburb := "bondi"
    state := "nsw"
    postcode := none
    property_type := "all"
    sales := [⟨"1 Beach Rd, Bondi", some 2500000, some 3, some 2⟩]
    cached_at := 1000
    total := 1 }

/-- A CoreLogic adapter result holding three priced comparables. -/
def corelogicThree : CompData :=
  { comparable_sold :=
      [⟨"2 Hill St", some 800000, some 3, some 2⟩,
       ⟨"3 Hill St", some 900000, some 3, some 2⟩,
       ⟨"4 Hill St", some 950000, some 3, some 2⟩]
    comparable_listings := []
    statistics := corelogicStatistics [800000, 900000, 950000] }

/-- A CoreLogic adapter result holding two priced comparables. -/
def corelogicTwo : CompData :=
  { comparable_sold :=
      [⟨"2 Hill St", some 800000, some 3, some 2⟩,
       ⟨"3 Hill St", some 900000, some 3, some 2⟩]
    comparable_listings := []
    statistics := corelogicStatistics [800000, 900000] }

/-- An environment with all keys configured, CoreLogic succeeding with three
comparables, and the other adapters never reached. -/
def envCacheBypass : ProviderEnv :=
  { hasCorelogicKeys := true
    hasDomainKey := true
    corelogicResult := some corelogicThree
    domainResult := some emptyCompData
    scrapedResult := some emptyCompData }

/-- An environment where CoreLogic returns two priced comparables and a
Domain key is configured. -/
def envTwoComps : ProviderEnv :=
  { hasCorelogicKeys := true
    hasDomainKey := true
    corelogicResult := some corelogicTwo
    domainResult := some corelogicThree
    scrapedResult := some emptyCompData }

/-- A single comparable that will occur in two sources at once. -/
def dupComp : Comp := ⟨"5 Dune St", some 750000, some 3, some 2⟩

/-- A working set holding only `dupComp`. -/
def oneCompData : CompData :=
  { comparable_sold := [dupComp]
    comparable_listings := []
    statistics := corelogicStatistics [750000] }

/-- A scraped result holding the same `(address, price)` pair again. -/
def scrapedDup : CompData :=
  { comparable_sold := [dupComp]
    comparable_listings := []
    statistics := scraperStatistics [] [dupComp] }

/-- A completed job carrying a result payload. -/
def completedJob : EvalJob :=
  { job_id := "job-1", status := .completed, stage := "completed"
    result := some "report", error := none }

/-- A failed job carrying an error message. -/
def failedJob : EvalJob :=
  { job_id := "job-2", status := .failed, stage := "failed"
    result := none, error := some "boom" }

/-- The Bondi scenario payload `{location: "Bondi, NSW 2026", beds: 3, baths: 2}`
with a size, so the per-area increment is exercised. -/
def bondiProp : PropertyInput :=
  { location := "Bondi, NSW 2026", beds := some 3, baths := some 2
    carpark := none, size := some 5, property_type := some "House" }

/-- The Bondi scenario payload exactly as in the spec (no carpark, no size). -/
def bondiPropBare : PropertyInput :=
  { location := "Bondi, NSW 2026", beds := some 3, baths := some 2
    carpark := none, size := none, property_type := none }

/-- Twelve priced listings that all pass the ±1 similarity filter for a
3-bed/2-bath target. -/
def twelveListings : List Comp :=
  [⟨"L1", some 700000, some 3, some 2⟩, ⟨"L2", some 710000, some 3, some 2⟩,
   ⟨"L3", some 720000, some 3, some 2⟩, ⟨"L4", some 730000, some 3, some 2⟩,
   ⟨"L5", some 740000, some 3, some 2⟩, ⟨"L6", some 750000, some 3, some 2⟩,
   ⟨"L7", some 760000, some 3, some 2⟩, ⟨"L8", some 770000, some 3, some 2⟩,
   ⟨"L9", some 780000, some 3, some 2⟩, ⟨"L10", some 790000, some 3, some 2⟩,
   ⟨"L11", some 800000, some 3, some 2⟩, ⟨"L12", some 810000, some 3, some 2⟩]

/-! ## Theorems -/

lemma median_if_eq (l : List Int) :
    (if (sortAsc l).length > 0 then (sortAsc l)[(sortAsc l).length / 2]? else none) =
      medianLower l := by
  unfold medianLower
  split
  · rfl
  · rename_i h
    have hl : (sortAsc l).length = 0 := by omega
    have : sortAsc l = [] := List.length_eq_zero.mp hl
    simp [this]

lemma median_if_eq' (l : List Int) :
    (if l.length > 0 then (sortAsc l)[l.length / 2]? else none) = medianLower l := by
  have hlen : (sortAsc l).length = l.length := List.length_insertionSort _ l
  rw [show (if l.length > 0 then (sortAsc l)[l.length / 2]? else none) =
      (if (sortAsc l).length > 0 then (sortAsc l)[(sortAsc l).length / 2]? else none) by
    rw [hlen]]
  exact median_if_eq l

/-- **C1** (counterexample).  For the even-count price list
`[100, 200, 300, 400]`, the CoreLogic and Domain statistics blocks report
median `300` — the element at index `⌊4/2⌋ = 2` of the ascending sort, the
*upper* of the two middles — not `200` as the claim's example states. -/
theorem c1_median_even_counterexample :
    (corelogicStatistics [100, 200, 300, 400]).price_range.median = some 300 ∧
    (domainStatistics
      [⟨"a", some 100, none, none⟩, ⟨"b", some 200, none, none⟩,
       ⟨"c", some 300, none, none⟩, ⟨"d", some 400, none, none⟩]).price_range.median =
      some 300 ∧
    some (300 : Int) ≠ some 200 :=
  ⟨by decide, by decide, by decide⟩

/-- **C1** (amended).  In every statistics block — the Domain adapter, the
CoreLogic adapter, the scraper, and the merged statistics recomputed in the
job pipeline — the reported median is the element at index `⌊n/2⌋` of the
ascending-sorted price list of the priced comparables.  For odd counts this
is the middle element (`[100,200,300] → 200`); for even counts it is the
*upper* of the two middles (`[100,200,300,400] → 300`, not 200, not 250). -/
theorem c1_median_rule_amended :
    (∀ sold : List Comp,
      (domainStatistics sold).price_range.median = medianLower (pricedPrices sold)) ∧
    (∀ prices : List Int,
      (corelogicStatistics prices).price_range.median = medianLower prices) ∧
    (∀ ls ss : List Comp,
      (scraperStatistics ls ss).price_range.median =
        medianLower (((ls ++ ss).filter (fun p => p.price ≠ none)).filterMap (·.price))) ∧
    (∀ d s : CompData,
      pricedPrices (mergeScraped d s).comparable_sold ++
          pricedPrices (mergeScraped d s).comparable_listings ≠ [] →
      (mergeScraped d s).statistics.price_range.median =
        medianLower (pricedPrices (mergeScraped d s).comparable_sold ++
          pricedPrices (mergeScraped d s).comparable_listings)) ∧
    medianLower [100, 200, 300] = some 200 ∧
    medianLower [100, 200, 300, 400] = some 300 := by
  refine ⟨fun sold => ?_, fun prices => ?_, fun ls ss => ?_, fun d s h => ?_,
    by decide, by decide⟩
  · exact median_if_eq (pricedPrices sold)
  · exact median_if_eq' prices
  · exact median_if_eq _
  · dsimp only [mergeScraped] at h ⊢
    rcases Nat.lt_or_ge d.comparable_sold.length 3 with hlt | hge
    · simp only [if_pos hlt] at h ⊢
      split
      · rfl
      · rename_i hlen
        exact absurd (List.length_eq_zero.mp (by omega)) h
    · simp only [if_neg (Nat.not_lt.mpr hge)] at h ⊢
      split
      · rfl
      · rename_i hlen
        exact absurd (List.length_eq_zero.mp (by omega)) h

/-- **C1** witness: the amended median rule evaluated at the odd example and
at a concrete pipeline merge. -/
theorem c1_median_rule_amended_witness :
    (corelogicStatistics [100, 200, 300]).price_range.median = some 200 ∧
    (mergeScraped oneCompData scrapedDup).statistics.price_range.median = some 750000 :=
  ⟨by rw [c1_median_rule_amended.2.1 [100, 200, 300]]; decide,
   by rw [c1_median_rule_amended.2.2.2.1 oneCompData scrapedDup (by decide)]; decide⟩

lemma find?_cacheUpsert_self (key : String) (entry : CacheEntry)
    (h : entry.cache_key = key) (store : List CacheEntry) :
    (cacheUpsert key entry store).find? (·.cache_key == key) = some entry := by
  induction store with
  | nil => simp [cacheUpsert, List.find?_cons, h]
  | cons e rest ih =>
    unfold cacheUpsert
    by_cases he : (e.cache_key == key) = true
    · rw [if_pos he]
      simp [List.find?_cons, h]
    · rw [if_neg he]
      rw [List.find?_cons_of_neg _ (by simpa using he)]
      exact ih

/-- **C2** (counterexample).  The cache holds a valid entry for the queried
suburb, yet the quick-evaluation pipeline still consults the primary adapter,
returns the adapter's comparables rather than the cached ones, performs no
cache read, and ends with the cache exactly as it found it (no persist). -/
theorem c2_cache_bypass_counterexample :
    cacheGet [bondiCacheEntry] "Bondi" "NSW" none none 1000 =
      .hit "bondi-nsw-none-all" 1000 bondiCacheEntry.sales 1 ∧
    (fetchComparablesWithCache envCacheBypass [bondiCacheEntry]).2.2.corelogicCalled = true ∧
    (fetchComparablesWithCache envCacheBypass [bondiCacheEntry]).1.comparable_sold ≠
      bondiCacheEntry.sales ∧
    (fetchComparablesWithCache envCacheBypass [bondiCacheEntry]).2.2.cacheReads = 0 ∧
    (fetchComparablesWithCache envCacheBypass [bondiCacheEntry]).2.1 = [bondiCacheEntry] :=
  ⟨by decide, by decide, by decide, by decide, by decide⟩

/-- **C2** (amended).  The quick-evaluation pipeline never reads or writes the
suburb sales cache: the cache passes through any run unchanged, the trace
records zero cache operations, and the returned working set is a function of
the provider environment alone.  Cache replacement semantics live only in the
dedicated cache-write endpoint, which does replace any entry under the key
wholesale with the fresh one. -/
theorem c2_pipeline_cache_independence (env : ProviderEnv) (cache : List CacheEntry)
    (suburb state : String) (postcode propertyType : Option String)
    (sales : List Comp) (now : Int) :
    (fetchComparablesWithCache env cache).2.1 = cache ∧
    (fetchComparablesWithCache env cache).2.2.cacheReads = 0 ∧
    (fetchComparablesWithCache env cache).2.2.cacheWrites = 0 ∧
    (fetchComparablesWithCache env cache).1 = (fetchComparables env).1 ∧
    (cachePost cache suburb state postcode propertyType sales now).find?
        (·.cache_key == makeCacheKey suburb state postcode propertyType) =
      some { cache_key := makeCacheKey suburb state postcode propertyType
             suburb := strToLower suburb, state := strToLower state, postcode := postcode
             property_type := jsOrStr propertyType "all"
             sales := sales, cached_at := now, total := sales.length } :=
  ⟨rfl, rfl, rfl, rfl, by
    simp only [cachePost]
    apply find?_cacheUpsert_self
    rfl⟩

/-- **C3** (counterexample).  With two priced comparables in the working set
(below the threshold of 3) and a Domain key configured, the secondary Domain
adapter is *not* consulted — it only runs when the set is empty; and the
scrape merge keeps both copies of an identical `(address, price)` pair, so no
deduplication happens. -/
theorem c3_domain_threshold_counterexample :
    (workingSetAfterCorelogic envTwoComps).statistics.total_found = 2 ∧
    envTwoComps.hasDomainKey = true ∧
    (fetchComparables envTwoComps).2.domainCalled = false ∧
    (mergeScraped oneCompData scrapedDup).comparable_sold = [dupComp, dupComp] :=
  ⟨by decide, by decide, by decide, by decide⟩

/-- **C3** (amended).  The Domain adapter is consulted exactly when the
working set after CoreLogic holds zero comparables and a Domain key exists;
the scraper is consulted exactly when the working set after the Domain step
holds fewer than 3; scraped results are merged by concatenation truncated to
5 entries per list (sold entries only merged when fewer than 3 were held),
with no `(address, price)` deduplication. -/
theorem c3_fallback_chain_amended (env : ProviderEnv) (d s : CompData) :
    ((fetchComparables env).2.domainCalled = true ↔
      (workingSetAfterCorelogic env).statistics.total_found = 0 ∧
        env.hasDomainKey = true) ∧
    ((fetchComparables env).2.scraperCalled = true ↔
      (workingSetAfterDomain env).statistics.total_found < 3) ∧
    (mergeScraped d s).comparable_listings =
      (d.comparable_listings ++ s.comparable_listings).take 5 ∧
    (mergeScraped d s).comparable_sold =
      (if d.comparable_sold.length < 3 then
        (d.comparable_sold ++ s.comparable_sold).take 5
      else d.comparable_sold) := by
  refine ⟨?_, ?_, rfl, rfl⟩
  · simp [fetchComparables, Bool.and_eq_true, beq_iff_eq]
  · simp [fetchComparables, decide_eq_true_eq]

lemma find?_eq_some_of_unique {α : Type} (p : α → Bool) (l : List α) (a : α)
    (ha : a ∈ l) (hpa : p a = true) (huniq : ∀ b ∈ l, p b = true → b = a) :
    l.find? p = some a := by
  induction l with
  | nil => cases ha
  | cons x xs ih =>
    by_cases hx : p x = true
    · have hxa : x = a := huniq x (List.mem_cons_self _ _) hx
      rw [List.find?_cons_of_pos _ hx, hxa]
    · rw [List.find?_cons_of_neg _ (by simpa using hx)]
      rcases List.mem_cons.mp ha with rfl | hmem
      · exact absurd hpa hx
      · exact ih hmem (fun b hb hpb => huniq b (List.mem_cons_of_mem _ hb) hpb)

/-- **C4** (confirmed).  With the 7-day TTL constant, a read of the (unique)
entry under a key one second before expiry is a hit carrying the stored
sales, `cached_at` and `total`; one second after expiry it is a miss; and the
read endpoint never deletes anything — the entry is still in the store. -/
theorem c4_cache_ttl_boundary (store : List CacheEntry) (e : CacheEntry)
    (suburb state : String) (postcode propertyType : Option String)
    (hkey : e.cache_key = makeCacheKey suburb state postcode propertyType)
    (hmem : e ∈ store)
    (huniq : ∀ e' ∈ store, e'.cache_key = e.cache_key → e' = e) :
    CACHE_TTL_SECONDS = 7 * 86400 ∧
    cacheGet store suburb state postcode propertyType
        (e.cached_at + CACHE_TTL_SECONDS - 1) =
      .hit e.cache_key e.cached_at e.sales e.total ∧
    cacheGet store suburb state postcode propertyType
        (e.cached_at + CACHE_TTL_SECONDS + 1) =
      .miss (makeCacheKey suburb state postcode propertyType) ∧
    e ∈ store := by
  refine ⟨rfl, ?_, ?_, hmem⟩
  · simp only [cacheGet]
    have hfind : store.find?
        (fun x => x.cache_key == makeCacheKey suburb state postcode propertyType &&
          decide (e.cached_at + CACHE_TTL_SECONDS - 1 - CACHE_TTL_SECONDS ≤
            x.cached_at)) = some e := by
      apply find?_eq_some_of_unique _ store e hmem
      · rw [← hkey]
        simp only [beq_self_eq_true, Bool.true_and, decide_eq_true_eq]
        omega
      · intro b hb hpb
        have hb1 := ((Bool.and_eq_true _ _).mp hpb).1
        exact huniq b hb (by rw [hkey]; exact eq_of_beq hb1)
    rw [hfind, hkey]
  · simp only [cacheGet]
    have hfind : store.find?
        (fun x => x.cache_key == makeCacheKey suburb state postcode propertyType &&
          decide (e.cached_at + CACHE_TTL_SECONDS + 1 - CACHE_TTL_SECONDS ≤
            x.cached_at)) = none := by
      apply List.find?_eq_none.mpr
      intro b hb
      by_cases hbk : b.cache_key = makeCacheKey suburb state postcode propertyType
      · have hbe : b = e := huniq b hb (by rw [hbk, hkey])
        subst hbe
        simp only [Bool.and_eq_true, decide_eq_true_eq, not_and]
        intro _
        omega
      · simp only [Bool.and_eq_true, decide_eq_true_eq, not_and]
        intro hc
        exact absurd (eq_of_beq hc) hbk
    rw [hfind]

/-- **C4** witness: the boundary reads evaluated on a concrete store holding
the Bondi entry cached at second 1000. -/
theorem c4_cache_ttl_boundary_witness :
    cacheGet [bondiCacheEntry] "Bondi" "NSW" none none (1000 + CACHE_TTL_SECONDS - 1) =
      .hit "bondi-nsw-none-all" 1000 bondiCacheEntry.sales 1 ∧
    cacheGet [bondiCacheEntry] "Bondi" "NSW" none none (1000 + CACHE_TTL_SECONDS + 1) =
      .miss "bondi-nsw-none-all" := by
  have h := c4_cache_ttl_boundary [bondiCacheEntry] bondiCacheEntry "Bondi" "NSW"
    none none (by decide) (by decide) (by decide)
  exact ⟨h.2.1, by
    have := h.2.2.1
    simpa using this⟩

lemma getJobRec_deleteJobRec_self (store : List EvalJob) (id : String)
    (hnodup : (store.map (·.job_id)).Nodup) :
    getJobRec (deleteJobRec store id) id = none := by
  induction store with
  | nil => rfl
  | cons j rest ih =>
    rw [List.map_cons, List.nodup_cons] at hnodup
    unfold deleteJobRec at *
    rw [List.eraseP_cons]
    by_cases hj : (j.job_id == id) = true
    · rw [hj, cond_true]
      apply List.find?_eq_none.mpr
      intro b hb hpb
      have hbid : b.job_id = id := eq_of_beq hpb
      have hjid : j.job_id = id := eq_of_beq hj
      exact hnodup.1 (by
        rw [hjid, ← hbid]
        exact List.mem_map_of_mem _ hb)
    · have hj' : (j.job_id == id) = false := by simpa using hj
      rw [hj', cond_false]
      unfold getJobRec
      rw [List.find?_cons_of_neg _ (by simp [hj'])]
      exact ih hnodup.2

/-- **C5** (counterexample).  In the in-memory orchestrator variant, a poll of
a completed job delivers the result but does *not* delete the job record, so
a second poll of the same id delivers it again instead of the not-found
error the claim requires for both variants. -/
theorem c5_memory_variant_counterexample :
    (pollStatusMem [completedJob] "job-1").1 =
      .ok .completed "completed" (some "report") none ∧
    (pollStatusMem [completedJob] "job-1").2 = [completedJob] ∧
    (pollStatusMem (pollStatusMem [completedJob] "job-1").2 "job-1").1 ≠ .notFound :=
  ⟨by decide, by decide, by decide⟩

/-- **C5** (amended).  Polling returns `{status, stage}` while the job is
pending in both variants.  In the database variant, the first poll observing
`completed` with an attached result, or `failed` with a truthy error message,
carries the payload and deletes the job record, so every later poll of that
id gets the not-found error.  In the in-memory variant the payload is
delivered on *every* poll: the handler never deletes the record (only the
10-minute reaper does). -/
theorem c5_poll_delivery_amended (store : List EvalJob) (j : EvalJob)
    (hfind : getJobRec store j.job_id = some j)
    (hnodup : (store.map (·.job_id)).Nodup) :
    ((j.status = .queued ∨ j.status = .in_progress) →
      pollStatusDb store j.job_id = (.ok j.status j.stage none none, store) ∧
      pollStatusMem store j.job_id = (.ok j.status j.stage none none, store)) ∧
    (j.status = .completed → j.result.isSome = true →
      (pollStatusDb store j.job_id).1 = .ok .completed j.stage j.result none ∧
      getJobRec (pollStatusDb store j.job_id).2 j.job_id = none ∧
      (pollStatusDb (pollStatusDb store j.job_id).2 j.job_id).1 = .notFound ∧
      (pollStatusMem store j.job_id).1 = .ok .completed j.stage j.result none ∧
      (pollStatusMem store j.job_id).2 = store) ∧
    (j.status = .failed → jsTruthyStr j.error = true →
      (pollStatusDb store j.job_id).1 = .ok .failed j.stage none j.error ∧
      getJobRec (pollStatusDb store j.job_id).2 j.job_id = none ∧
      (pollStatusDb (pollStatusDb store j.job_id).2 j.job_id).1 = .notFound ∧
      (pollStatusMem store j.job_id).1 = .ok .failed j.stage none j.error ∧
      (pollStatusMem store j.job_id).2 = store) := by
  obtain ⟨jid, jst, jstg, jres, jerr⟩ := j
  simp only at hfind ⊢
  refine ⟨?_, ?_, ?_⟩
  · intro hp
    constructor
    · simp only [pollStatusDb]
      rw [hfind]
      rcases hp with rfl | rfl <;> simp [beq_iff_eq]
    · simp only [pollStatusMem]
      rw [hfind]
      rcases hp with rfl | rfl <;> simp [beq_iff_eq]
  · intro hc hr
    subst hc
    have hdel : (pollStatusDb store jid).2 = deleteJobRec store jid := by
      simp only [pollStatusDb]
      rw [hfind]
      simp [hr]
    refine ⟨?_, ?_, ?_, ?_, ?_⟩
    · simp only [pollStatusDb]
      rw [hfind]
      simp [hr, beq_iff_eq]
    · rw [hdel]
      exact getJobRec_deleteJobRec_self store jid hnodup
    · rw [hdel]
      simp only [pollStatusDb]
      rw [getJobRec_deleteJobRec_self store jid hnodup]
    · simp only [pollStatusMem]
      rw [hfind]
      simp [hr, beq_iff_eq]
    · simp only [pollStatusMem]
      rw [hfind]
  · intro hc hr
    subst hc
    have hdel : (pollStatusDb store jid).2 = deleteJobRec store jid := by
      simp only [pollStatusDb]
      rw [hfind]
      simp [hr]
    refine ⟨?_, ?_, ?_, ?_, ?_⟩
    · simp only [pollStatusDb]
      rw [hfind]
      simp [hr, beq_iff_eq]
    · rw [hdel]
      exact getJobRec_deleteJobRec_self store jid hnodup
    · rw [hdel]
      simp only [pollStatusDb]
      rw [getJobRec_deleteJobRec_self store jid hnodup]
    · simp only [pollStatusMem]
      rw [hfind]
      simp [hr, beq_iff_eq]
    · simp only [pollStatusMem]
      rw [hfind]

/-- **C5** witness: the amended delivery semantics evaluated on concrete
stores — a completed job and a failed job — covering result delivery with
deletion, error delivery with deletion, the subsequent not-found, and the
in-memory variant's retention of the failed record. -/
theorem c5_poll_delivery_amended_witness :
    (pollStatusDb [completedJob] "job-1").1 =
      .ok .completed "completed" (some "report") none ∧
    (pollStatusDb (pollStatusDb [completedJob] "job-1").2 "job-1").1 = .notFound ∧
    (pollStatusDb [failedJob] "job-2").1 =
      .ok .failed "failed" none (some "boom") ∧
    (pollStatusDb (pollStatusDb [failedJob] "job-2").2 "job-2").1 = .notFound ∧
    (pollStatusMem [failedJob] "job-2").1 =
      .ok .failed "failed" none (some "boom") ∧
    (pollStatusMem [failedJob] "job-2").2 = [failedJob] := by
  have h := (c5_poll_delivery_amended [completedJob] completedJob
    (by decide) (by decide)).2.1 rfl rfl
  have h' := (c5_poll_delivery_amended [failedJob] failedJob
    (by decide) (by decide)).2.2 rfl (by decide)
  exact ⟨h.1, h.2.2.1, h'.1, h'.2.2.1, h'.2.2.2.1, h'.2.2.2.2⟩

/-- **C6** (counterexample).  With no statistics available, the database
variant's fallback estimate for a 3-bed/2-bath house of size 5 is 915,000:
not a multiple of 10,000 (so no rounding to the nearest 10,000 happens), and
identical for the property types house and apartment (so no property-type
factor is applied). -/
theorem c6_basic_report_counterexample :
    basicReportEstimate none none bondiProp = 915000 ∧
    basicReportEstimate none none
      { bondiProp with property_type := some "Apartment" } = 915000 ∧
    ¬ ((915000 : Int) % 10000 = 0) :=
  ⟨by decide, by decide, by decide⟩

/-- **C6** (amended).  With no narrative engine and no statistics, the
database variant's report uses the additive formula
`500000 + 100000·beds + 50000·baths + 30000·carpark (+ 3000·size)` with *no*
property-type factor and *no* rounding step, and presents it as a three-point
range with conservative = round(0.95·e) and premium = round(1.05·e).  The
property-type factor (house 1.2 > villa 1.1 > townhouse 1.0 > apartment 0.85)
and the rounding to the nearest 10,000 exist only in the in-memory variant's
`calculateEstimatedPrice`, which additionally multiplies by a random factor
(here the parameter `rNum/rDen`), so its estimate is always a multiple of
10,000.  For the spec's Bondi scenario `{beds: 3, baths: 2}` the deterministic
range is 855,000 / 900,000 / 945,000. -/
theorem c6_fallback_formula_amended (p : PropertyInput) (rNum rDen : Int) :
    basicReportEstimate none none p =
      500000 + p.beds.getD 0 * 100000 + p.baths.getD 0 * 50000 +
        p.carpark.getD 0 * 30000 +
        (if jsTruthyInt p.size then p.size.getD 0 * 3000 else 0) ∧
    basicReportRange none none p =
      { conservative := roundRatio (19 * basicReportEstimate none none p) 20
        market := basicReportEstimate none none p
        premium := roundRatio (21 * basicReportEstimate none none p) 20 } ∧
    (∃ k : Int, calculateEstimatedPrice p rNum rDen = k * 10000) ∧
    typeFactor (some "House") = (12, 10) ∧
    typeFactor (some "Villa") = (11, 10) ∧
    typeFactor (some "Townhouse") = (10, 10) ∧
    typeFactor (some "Apartment") = (85, 100) ∧
    ((12 : Int) * 10 > 11 * 10 ∧ (11 : Int) * 10 > 10 * 10 ∧
      (10 : Int) * 100 > 85 * 10) ∧
    basicReportRange none none bondiPropBare =
      { conservative := 855000, market := 900000, premium := 945000 } := by
  refine ⟨rfl, rfl, ⟨roundRatio
      ((500000 + p.beds.getD 0 * 100000 + p.baths.getD 0 * 50000 +
        p.carpark.getD 0 * 30000 +
        (if jsTruthyInt p.size then p.size.getD 0 * 3000 else 0)) *
          (typeFactor p.property_type).1 * rNum)
      ((typeFactor p.property_type).2 * rDen * 10000), rfl⟩,
    by decide, by decide, by decide, by decide, by decide, by decide⟩

/-- **C7** (counterexample).  The Domain adapter's price parsing recovers
nothing from `"850k"` (its regex requires a leading `$`) and truncates
`"$850k"` to `850`, while only the scraper's `extractPrice` yields `850000`;
so shorthand-suffix tolerance does not hold for each adapter. -/
theorem c7_domain_price_parsing_counterexample :
    domainListingPrice (some "850k") = none ∧
    domainListingPrice (some "$850k") = some 850 ∧
    extractPrice "850k" = some 850000 :=
  ⟨by decide, by decide, by decide⟩

/-- **C7** (amended).  The scraper's `extractPrice` tolerates currency
symbols, thousands separators and shorthand suffixes (`"1.2m"` → 1,200,000,
`"850k"` → 850,000, `"$1,250,000"` → 1,250,000); the Domain adapter only
recognises `$`-prefixed digit/comma runs (`"$850,000"` → 850,000, but
`"1.2m"` → nothing).  In both adapters, a comparable whose price text yields
no truthy numeric price is omitted from the result — never kept with a
defaulted price of zero. -/
theorem c7_price_parsing_amended (items : List ScrapeItem)
    (listings : List DomainListing) (beds baths : Int) :
    extractPrice "1.2m" = some 1200000 ∧
    extractPrice "850k" = some 850000 ∧
    extractPrice "$1,250,000" = some 1250000 ∧
    domainListingPrice (some "$850,000") = some 850000 ∧
    domainListingPrice (some "1.2m") = none ∧
    (∀ c ∈ buildScrapedListings items beds baths, jsTruthyInt c.price = true) ∧
    (∀ c ∈ buildDomainProperties listings, jsTruthyInt c.price = true) := by
  refine ⟨by decide, by decide, by decide, by decide, by decide, ?_, ?_⟩
  · intro c hc
    rcases List.mem_filterMap.mp hc with ⟨it, _, heq⟩
    rcases hp : extractPrice it.priceText with _ | v
    · rw [hp] at heq
      dsimp only at heq
      cases heq
    · rw [hp] at heq
      dsimp only at heq
      by_cases hz : (v != 0) = true
      · rw [if_pos hz] at heq
        cases heq
        simpa [jsTruthyInt] using hz
      · rw [if_neg hz] at heq
        cases heq
  · intro c hc
    rcases List.mem_filterMap.mp hc with ⟨l, _, heq⟩
    by_cases ht : jsTruthyInt (domainListingPrice l.displayPrice) = true
    · rw [if_pos ht] at heq
      cases heq
      exact ht
    · rw [if_neg ht] at heq
      cases heq

/-- **C8** (confirmed).  For every run of the orchestrator (whether the job
record was found by the background task, and whether its body completed or
threw), the sequence of stored statuses starts at `queued`, each step is one
of queued → in_progress → {completed | failed}, and `completed`/`failed` is
always preceded by `in_progress`. -/
theorem c8_status_transitions (jobFound bodyOk : Bool) :
    (jobStatusTrace jobFound bodyOk).head? = some .queued ∧
    List.Chain' (fun a b => allowedTransition a b = true)
      (jobStatusTrace jobFound bodyOk) ∧
    (∀ pre s post, jobStatusTrace jobFound bodyOk = pre ++ s :: post →
      (s = JobStatus.completed ∨ s = JobStatus.failed) →
      JobStatus.in_progress ∈ pre) := by
  cases jobFound <;> cases bodyOk <;>
    refine ⟨rfl, by simp [jobStatusTrace, List.chain'_cons, allowedTransition], ?_⟩ <;>
    · intro pre s post h hs
      rcases hs with rfl | rfl <;>
        rcases pre with _ | ⟨a, _ | ⟨b, _ | ⟨c, rest⟩⟩⟩ <;>
        simp_all [jobStatusTrace]

/-- **C8** witness: the trace of a found job whose body succeeded, with the
`completed` entry preceded by `in_progress`. -/
theorem c8_status_transitions_witness :
    (jobStatusTrace true true).head? = some .queued ∧
    JobStatus.in_progress ∈ [JobStatus.queued, JobStatus.in_progress] :=
  ⟨(c8_status_transitions true true).1,
   (c8_status_transitions true true).2.2 [.queued, .in_progress] .completed []
     (by decide) (Or.inl rfl)⟩

lemma activeCount_eq_zero_of_all_inactive (l : List WeightsConfig)
    (h : ∀ w ∈ l, w.is_active = false) : activeCount l = 0 := by
  unfold activeCount
  rw [List.length_eq_zero]
  rw [List.filter_eq_nil_iff]
  intro w hw
  simp [h w hw]

lemma is_active_deactivateAll (store : List WeightsConfig) :
    ∀ w ∈ deactivateAll store, w.is_active = false := by
  intro w hw
  rcases List.mem_map.mp hw with ⟨v, _, rfl⟩
  by_cases hv : v.is_active = true
  · simp [hv]
  · simp only [Bool.not_eq_true] at hv
    simp [hv]

lemma find?_id_deactivateAll (store : List WeightsConfig) (id : String) :
    ((deactivateAll store).find? (·.id == id)).isSome =
      (store.find? (·.id == id)).isSome := by
  induction store with
  | nil => rfl
  | cons w rest ih =>
    simp only [deactivateAll, List.map_cons, List.find?_cons]
    have hid : ((if w.is_active then { w with is_active := false } else w).id == id) =
        (w.id == id) := by
      split <;> rfl
    rw [hid]
    by_cases h : (w.id == id) = true
    · rw [h]
      rfl
    · have h' : (w.id == id) = false := by simpa using h
      rw [h']
      exact ih

lemma activeCount_updateFirst_activate (l : List WeightsConfig) (id : String)
    (hall : ∀ w ∈ l, w.is_active = false)
    (hmem : (l.find? (·.id == id)).isSome = true) :
    activeCount (updateFirstById id (fun w => { w with is_active := true }) l) = 1 := by
  induction l with
  | nil => simp [List.find?] at hmem
  | cons w rest ih =>
    unfold updateFirstById
    by_cases h : (w.id == id) = true
    · rw [if_pos h]
      have : activeCount rest = 0 :=
        activeCount_eq_zero_of_all_inactive rest
          (fun v hv => hall v (List.mem_cons_of_mem _ hv))
      simp [activeCount, List.filter_cons] at this ⊢
      exact this
    · rw [if_neg h]
      rw [List.find?_cons_of_neg _ (by simp [h])] at hmem
      have hw : w.is_active = false := hall w (List.mem_cons_self _ _)
      have := ih (fun v hv => hall v (List.mem_cons_of_mem _ hv)) hmem
      simp [activeCount, List.filter_cons, hw] at this ⊢
      exact this

lemma find?_isActive_none (store : List WeightsConfig)
    (h : activeCount store = 0) : store.find? (·.is_active) = none := by
  apply List.find?_eq_none.mpr
  intro w hw hwa
  have hmemf : w ∈ store.filter (·.is_active) := List.mem_filter.mpr ⟨hw, hwa⟩
  have hfe : store.filter (·.is_active) = [] := by
    have h' : (store.filter (·.is_active)).length = 0 := by simpa [activeCount] using h
    exact List.length_eq_zero.mp h'
  rw [hfe] at hmemf
  cases hmemf

/-- **C9** (counterexample).  First access creates the (active) default
configuration; a subsequent update of that configuration with
`is_active: false` leaves *zero* active configurations, contradicting
"exactly one configuration is active at any time". -/
theorem c9_update_deactivates_counterexample :
    activeCount (getActiveWeights [] "cfg-1").1 = 1 ∧
    activeCount
      (updateWeights (getActiveWeights [] "cfg-1").1 "cfg-1" (some false)).1 = 0 :=
  ⟨by decide, by decide⟩

/-- **C9** (amended).  Creating a configuration and activating one by id each
leave exactly one active configuration; first access on a store with no
active configuration inserts an active default; and deleting the active
configuration is rejected, leaving the store untouched.  The update route,
however, can set the active configuration inactive (see the counterexample),
so the one-active invariant holds only for the listed operations. -/
theorem c9_weights_invariant_amended (store : List WeightsConfig)
    (freshId name id : String) (w : WeightsConfig) :
    activeCount (createWeights store freshId name) = 1 ∧
    ((store.find? (·.id == id)).isSome = true →
      activeCount (activateWeights store id).1 = 1) ∧
    (activeCount store = 0 →
      activeCount (getActiveWeights store freshId).1 = 1 ∧
      (getActiveWeights store freshId).2.is_active = true) ∧
    (store.find? (·.id == id) = some w → w.is_active = true →
      deleteWeights store id = (store, .activeForbidden)) := by
  refine ⟨?_, ?_, ?_, ?_⟩
  · unfold createWeights
    simp [activeCount, List.filter_append]
    exact is_active_deactivateAll store
  · intro hmem
    unfold activateWeights
    rcases hf : store.find? (·.id == id) with _ | v
    · rw [hf] at hmem
      simp at hmem
    · rw [hf]
      exact activeCount_updateFirst_activate _ id (is_active_deactivateAll store)
        (by rw [find?_id_deactivateAll]; rw [hf]; rfl)
  · intro hz
    unfold getActiveWeights
    rw [find?_isActive_none store hz]
    constructor
    · have hz' : store.filter (·.is_active) = [] := by
        have h' : (store.filter (·.is_active)).length = 0 := by
          simpa [activeCount] using hz
        exact List.length_eq_zero.mp h'
      simp [activeCount, List.filter_append, hz']
    · rfl
  · intro hf hact
    unfold deleteWeights
    rw [hf]
    simp [hact]

/-- **C9** witness: the amended invariant evaluated on concrete stores for
create, activate and active-delete rejection. -/
theorem c9_weights_invariant_amended_witness :
    activeCount (createWeights [] "cfg-1" "custom") = 1 ∧
    activeCount (activateWeights
      [⟨"cfg-1", "default", false⟩, ⟨"cfg-2", "x", true⟩] "cfg-1").1 = 1 ∧
    deleteWeights [⟨"cfg-1", "default", true⟩] "cfg-1" =
      ([⟨"cfg-1", "default", true⟩], .activeForbidden) := by
  refine ⟨(c9_weights_invariant_amended [] "cfg-1" "custom" "x" ⟨"", "", false⟩).1,
    (c9_weights_invariant_amended [⟨"cfg-1", "default", false⟩, ⟨"cfg-2", "x", true⟩]
      "f" "n" "cfg-1" ⟨"", "", false⟩).2.1 (by decide),
    (c9_weights_invariant_amended [⟨"cfg-1", "default", true⟩]
      "f" "n" "cfg-1" ⟨"cfg-1", "default", true⟩).2.2.2 (by decide) rfl⟩

lemma length_filterMap_price (l : List Comp) :
    ((l.filter (fun p => p.price ≠ none)).filterMap (·.price)).length =
      (l.filter (fun p => p.price ≠ none)).length := by
  induction l with
  | nil => rfl
  | cons c rest ih =>
    rw [List.filter_cons]
    by_cases hc : (decide (c.price ≠ none)) = true
    · rw [if_pos hc]
      rcases hp : c.price with _ | v
      · exact absurd hp (by simpa using hc)
      · simp only [List.filterMap_cons, hp, List.length_cons, ih]
    · rw [if_neg hc]
      exact ih

/-- **C10** (confirmed).  The tertiary scraper returns at most 5 sold and at
most 5 listing comparables, while `total_found` counts *all* priced entries
that passed the ±1-bed/±1-bath filter before truncation; on twelve similar
priced listings it reports `total_found = 12` while returning only 5. -/
theorem c10_scraper_truncation (listings sold : List Comp) (beds baths : Int) :
    (scrapeComparablePropertiesResult listings sold beds baths).comparable_sold.length ≤ 5 ∧
    (scrapeComparablePropertiesResult listings sold beds baths).comparable_listings.length ≤ 5 ∧
    (scrapeComparablePropertiesResult listings sold beds baths).statistics.total_found =
      ((filterSimilar beds baths listings ++ filterSimilar beds baths sold).filter
        (fun p => p.price ≠ none)).length ∧
    (scrapeComparablePropertiesResult twelveListings [] 3 2).statistics.total_found = 12 ∧
    (scrapeComparablePropertiesResult twelveListings [] 3 2).comparable_listings.length = 5 ∧
    (scrapeComparablePropertiesResult twelveListings [] 3 2).comparable_sold.length = 0 := by
  refine ⟨?_, ?_, ?_, by decide, by decide, by decide⟩
  · simp only [scrapeComparablePropertiesResult, List.length_take]
    omega
  · simp only [scrapeComparablePropertiesResult, List.length_take]
    omega
  · exact length_filterMap_price _

/-- **C7** witness: the amended no-defaulted-zero property evaluated on a
concrete scrape item whose price text parses to 850,000. -/
theorem c7_price_parsing_amended_witness :
    jsTruthyInt (Comp.mk "1 A St" (some 850000) (some 3) (some 2)).price = true :=
  (c7_price_parsing_amended [⟨"1 A St", "$850k", some 3⟩] [] 3 2).2.2.2.2.2.1
    ⟨"1 A St", some 850000, some 3, some 2⟩ (by decide)
